import Mathlib

/-!
Verification of the Shamba Records backend (shamba app: models.py,
permissions.py, serializers.py, views.py) against its natural-language
specification.

The Django data model and views are shallowly embedded:
  * persisted tables become lists of records inside a `DB` value;
  * each HTTP view becomes a pure function from the current `DB`, the
    authenticated caller and the request payload to a result plus the new
    `DB` (views only model authenticated callers, since every endpoint in
    question sits behind an authentication check);
  * Django `DecimalField(max_digits=10, decimal_places=2)` values (crop
    quantity, farm size) are embedded as integers counting hundredths, so
    the model validator `MinValueValidator(Decimal(0.01))` becomes `1 ≤ v`
    and the serializer check `value <= 0` becomes `v ≤ 0`;
  * `created_at` timestamps are embedded at day granularity (`year`,
    `month`, `day`): the code only orders records by `created_at` and
    projects the year-month bucket, so finer fields are irrelevant;
  * password hashes and token issuance belong to the excluded framework
    collaborators and carry no claim, so `User` omits the credential and
    `validate_password` is an abstract boolean parameter where it matters;
  * `updated_at` columns and maximum-length constraints on char fields are
    never read by any view under verification and are omitted.
-/

namespace Shamba

/-- Creation timestamp at day granularity.  `key` is the chronological
order; the year-month pair is the `crop_statistics` bucket.  The factors
13 and 32 keep `key` strictly monotone in (year, month, day) for calendar
dates (month ≤ 12, day ≤ 31). -/
structure DateTime where
  year : Nat
  month : Nat
  day : Nat
deriving DecidableEq

def DateTime.key (t : DateTime) : Nat := (t.year * 13 + t.month) * 32 + t.day

/-- models.py `User` (AbstractUser extension).  `role` is a string with
model default "farmer"; `phone` and `address` are nullable. -/
structure User where
  id : Nat
  username : String
  email : String
  first_name : String
  last_name : String
  phone : Option String
  address : Option String
  role : String
deriving DecidableEq

/-- models.py `User.is_admin`. -/
def User.is_admin (u : User) : Bool := u.role == "admin"

/-- models.py `User.is_farmer`. -/
def User.is_farmer (u : User) : Bool := u.role == "farmer"

/-- models.py `Farmer`: one-to-one profile of a user.  `farm_size` is in
hundredths (see header). -/
structure Farmer where
  id : Nat
  userId : Nat
  farm_name : Option String
  farm_size : Option Int
  location : Option String
deriving DecidableEq

/-- models.py `Crop`.  `quantity` is in hundredths (see header). -/
structure Crop where
  id : Nat
  farmerId : Nat
  name : String
  crop_type : String
  quantity : Int
  unit : String
  planting_date : Option DateTime
  expected_harvest_date : Option DateTime
  status : String
  notes : Option String
  created_at : DateTime
deriving DecidableEq

/-- models.py `Crop.CROP_TYPES` choice keys. -/
def CROP_TYPES : List String :=
  ["cereals", "legumes", "vegetables", "fruits", "cash_crops", "other"]

/-- models.py `Crop.CROP_STATUS` choice keys. -/
def CROP_STATUS : List String :=
  ["planted", "growing", "harvested", "sold"]

/-- The persisted state: the three tables of models.py. -/
structure DB where
  users : List User
  farmers : List Farmer
  crops : List Crop
deriving DecidableEq

/-- Relational well-formedness guaranteed by Django's schema: primary keys
are unique, the `Farmer.user` one-to-one is injective, and every foreign
key resolves. -/
def DB.wf (db : DB) : Prop :=
  (db.users.map (fun u => u.id)).Nodup ∧
  (db.farmers.map (fun f => f.id)).Nodup ∧
  (db.farmers.map (fun f => f.userId)).Nodup ∧
  (db.crops.map (fun c => c.id)).Nodup ∧
  (∀ f ∈ db.farmers, ∃ u ∈ db.users, u.id = f.userId) ∧
  (∀ c ∈ db.crops, ∃ f ∈ db.farmers, f.id = c.farmerId)

instance (db : DB) : Decidable db.wf := by
  unfold DB.wf
  infer_instance

/-- Primary-key lookup on the user table. -/
def getUserById (db : DB) (uid : Nat) : Option User :=
  db.users.find? (fun u => u.id == uid)

/-- Primary-key lookup on the farmer table. -/
def getFarmerById (db : DB) (fid : Nat) : Option Farmer :=
  db.farmers.find? (fun f => f.id == fid)

/-- views.py `get_object_or_404(Farmer, user=request.user)`. -/
def getFarmerByUserId (db : DB) (uid : Nat) : Option Farmer :=
  db.farmers.find? (fun f => f.userId == uid)

/-- Primary-key lookup on the crop table (DRF `get_object` on
`Crop.objects.all()`). -/
def getCrop (db : DB) (cid : Nat) : Option Crop :=
  db.crops.find? (fun c => c.id == cid)

/-- permissions.py `IsCropOwnerOrAdmin.has_object_permission`: an admin may
access any crop, otherwise access iff `obj.farmer.user == request.user`
(Django model equality compares primary keys). -/
def hasObjectPermissionCrop (db : DB) (caller : User) (obj : Crop) : Bool :=
  if caller.is_admin then
    true
  else
    match getFarmerById db obj.farmerId with
    | some f =>
      match getUserById db f.userId with
      | some u => u.id == caller.id
      | none => false
    | none => false

/-- serializers.py `CropCreateUpdateSerializer` writable payload: exactly
the fields `name`, `crop_type`, `quantity`, `unit`, `planting_date`,
`expected_harvest_date`, `status`, `notes` — the owning farmer is not part
of the payload. -/
structure CropPayload where
  name : String
  crop_type : String
  quantity : Int
  unit : String
  planting_date : Option DateTime
  expected_harvest_date : Option DateTime
  status : String
  notes : Option String
deriving DecidableEq

/-- serializers.py `CropCreateUpdateSerializer.is_valid()`: the choice
fields must hold declared keys, and `validate_quantity` rejects
`value <= 0`. -/
def cropPayloadValid (p : CropPayload) : Bool :=
  CROP_TYPES.contains p.crop_type &&
  CROP_STATUS.contains p.status &&
  decide (0 < p.quantity)

/-- Applying a validated `CropCreateUpdateSerializer` payload to an existing
crop (`serializer.save()` on an instance): only the writable fields change;
`id`, `farmer` and `created_at` are untouched. -/
def applyCropUpdate (c : Crop) (p : CropPayload) : Crop :=
  { c with
    name := p.name
    crop_type := p.crop_type
    quantity := p.quantity
    unit := p.unit
    planting_date := p.planting_date
    expected_harvest_date := p.expected_harvest_date
    status := p.status
    notes := p.notes }

inductive CropGetResult where
  | notFound
  | forbidden
  | ok (c : Crop)
deriving DecidableEq

/-- views.py `CropDetailView` GET: DRF `get_object` looks the crop up by
primary key (404 when absent) and then runs `IsCropOwnerOrAdmin`
object-level check (403 on failure) before returning the crop. -/
def retrieveCrop (db : DB) (caller : User) (cid : Nat) : CropGetResult :=
  match getCrop db cid with
  | none => CropGetResult.notFound
  | some c =>
    if hasObjectPermissionCrop db caller c then CropGetResult.ok c
    else CropGetResult.forbidden

inductive CropWriteResult where
  | notFound
  | forbidden
  | badRequest
  | ok (c : Crop)
deriving DecidableEq

/-- views.py `CropDetailView` PUT: `get_object` (404), object permission
check (403), `CropCreateUpdateSerializer` validation (400), then save. -/
def updateCropView (db : DB) (caller : User) (cid : Nat) (p : CropPayload) :
    CropWriteResult × DB :=
  match getCrop db cid with
  | none => (CropWriteResult.notFound, db)
  | some c =>
    if hasObjectPermissionCrop db caller c then
      if cropPayloadValid p then
        (CropWriteResult.ok (applyCropUpdate c p),
         { db with
             crops := db.crops.map (fun x =>
               if x.id == c.id then applyCropUpdate x p else x) })
      else (CropWriteResult.badRequest, db)
    else (CropWriteResult.forbidden, db)

inductive CropDeleteResult where
  | notFound
  | forbidden
  | noContent
deriving DecidableEq

/-- views.py `CropDetailView` DELETE: `get_object` (404), object permission
check (403), then the instance is deleted. -/
def deleteCropView (db : DB) (caller : User) (cid : Nat) :
    CropDeleteResult × DB :=
  match getCrop db cid with
  | none => (CropDeleteResult.notFound, db)
  | some c =>
    if hasObjectPermissionCrop db caller c then
      (CropDeleteResult.noContent,
       { db with crops := db.crops.filter (fun x => x.id != c.id) })
    else (CropDeleteResult.forbidden, db)

/-- The ownership relation of the spec: crop `c` is owned, via its
FarmerProfile, by the user with id `uid`. -/
def ownsCrop (db : DB) (uid : Nat) (c : Crop) : Prop :=
  ∃ f ∈ db.farmers, f.id = c.farmerId ∧ f.userId = uid

/-- Sorting relations: ascending / descending by a numeric key.  Django
applies the model `Meta` ordering `-created_at` to every crop queryset. -/
def keyAsc {α : Type} (key : α → Nat) (a b : α) : Prop := key a ≤ key b

def keyDesc {α : Type} (key : α → Nat) (a b : α) : Prop := key b ≤ key a

instance {α : Type} (key : α → Nat) : DecidableRel (keyAsc key) :=
  fun a b => Nat.decLe (key a) (key b)

instance {α : Type} (key : α → Nat) : DecidableRel (keyDesc key) :=
  fun a b => Nat.decLe (key b) (key a)

instance {α : Type} (key : α → Nat) : IsTotal α (keyAsc key) :=
  ⟨fun a b => Nat.le_total (key a) (key b)⟩

instance {α : Type} (key : α → Nat) : IsTrans α (keyAsc key) :=
  ⟨fun _ _ _ h1 h2 => Nat.le_trans h1 h2⟩

instance {α : Type} (key : α → Nat) : IsTotal α (keyDesc key) :=
  ⟨fun a b => Nat.le_total (key b) (key a)⟩

instance {α : Type} (key : α → Nat) : IsTrans α (keyDesc key) :=
  ⟨fun _ _ _ h1 h2 => Nat.le_trans h2 h1⟩

/-- Sort key for the model Meta ordering `-created_at`: newest first. -/
def cropCreatedKey (c : Crop) : Nat := c.created_at.key

/-- A crop queryset in its default order (newest first). -/
def orderedCrops (cs : List Crop) : List Crop :=
  cs.insertionSort (keyDesc cropCreatedKey)

/-- views.py `CropListCreateView.get` filter step: Python
`if crop_type: crops = crops.filter(crop_type=crop_type)` — the filter is
applied only when the query parameter is present AND non-empty (Python
truthiness of an optional string). -/
def applyQueryFilter (field : Crop → String) (q : Option String)
    (cs : List Crop) : List Crop :=
  match q with
  | some s => if s != "" then cs.filter (fun c => field c == s) else cs
  | none => cs

/-- views.py `CropListCreateView.get`: admin sees all crops, a non-admin
caller sees the crops of their own FarmerProfile (404 when the profile is
missing); both optional query filters are then applied in sequence.
`none` models the 404 outcome. -/
def cropListGet (db : DB) (caller : User) (qt qs : Option String) :
    Option (List Crop) :=
  let scope : Option (List Crop) :=
    if caller.is_admin then
      some (orderedCrops db.crops)
    else
      match getFarmerByUserId db caller.id with
      | some f => some ((orderedCrops db.crops).filter (fun c => c.farmerId == f.id))
      | none => none
  match scope with
  | none => none
  | some cs =>
    some (applyQueryFilter (fun c => c.status) qs
      (applyQueryFilter (fun c => c.crop_type) qt cs))

inductive CropCreateResult where
  | notFound
  | badRequest
  | created (c : Crop)
deriving DecidableEq

/-- The crop row inserted by `serializer.save(farmer=farmer)`. -/
def mkCrop (f : Farmer) (p : CropPayload) (newId : Nat) (now : DateTime) : Crop :=
  { id := newId
    farmerId := f.id
    name := p.name
    crop_type := p.crop_type
    quantity := p.quantity
    unit := p.unit
    planting_date := p.planting_date
    expected_harvest_date := p.expected_harvest_date
    status := p.status
    notes := p.notes
    created_at := now }

/-- Shared tail of `CropListCreateView.post`: serializer validation then
`serializer.save(farmer=farmer)`. -/
def cropPostSave (db : DB) (f : Farmer) (p : CropPayload) (newId : Nat)
    (now : DateTime) : CropCreateResult × DB :=
  if cropPayloadValid p then
    (CropCreateResult.created (mkCrop f p newId now),
     { db with crops := mkCrop f p newId now :: db.crops })
  else (CropCreateResult.badRequest, db)

/-- views.py `CropListCreateView.post`: a farmer caller's crop is attached
to the caller's own FarmerProfile (`get_object_or_404(Farmer,
user=request.user)`, 404 when absent); any other caller (admin) must send
`farmer_id` in the body, else the view answers 400 "farmer_id is required
for admin" before touching the serializer.  `fid` models
`request.data.get('farmer_id')`. -/
def cropPost (db : DB) (caller : User) (fid : Option Nat) (p : CropPayload)
    (newId : Nat) (now : DateTime) : CropCreateResult × DB :=
  if caller.is_farmer then
    match getFarmerByUserId db caller.id with
    | none => (CropCreateResult.notFound, db)
    | some f => cropPostSave db f p newId now
  else
    match fid with
    | none => (CropCreateResult.badRequest, db)
    | some i =>
      match getFarmerById db i with
      | none => (CropCreateResult.notFound, db)
      | some f => cropPostSave db f p newId now

/-- serializers.py `UserRegistrationSerializer` input. -/
structure RegPayload where
  username : String
  email : String
  password : String
  confirm_password : String
  first_name : String
  last_name : String
  phone : Option String
  address : Option String
deriving DecidableEq

/-- Fresh auto-increment primary keys. -/
def freshUserId (db : DB) : Nat :=
  (db.users.map (fun u => u.id)).foldr max 0 + 1

def freshFarmerId (db : DB) : Nat :=
  (db.farmers.map (fun f => f.id)).foldr max 0 + 1

/-- views.py `RegisterView.post` + serializers.py
`UserRegistrationSerializer`: validation checks password == confirmation,
password strength (external `validate_password`, abstracted as `pwOk`) and
username uniqueness; on success `create` builds the User — the serializer
exposes no `role` field, so the model default "farmer" applies — and, since
`user.role == 'farmer'`, an empty FarmerProfile for it.  `none` models the
400 response. -/
def registerView (db : DB) (p : RegPayload) (pwOk : String → Bool) :
    Option (User × DB) :=
  if p.password == p.confirm_password && pwOk p.password &&
      db.users.all (fun u => u.username != p.username) then
    let u : User :=
      { id := freshUserId db
        username := p.username
        email := p.email
        first_name := p.first_name
        last_name := p.last_name
        phone := p.phone
        address := p.address
        role := "farmer" }
    let f : Farmer :=
      { id := freshFarmerId db
        userId := u.id
        farm_name := none
        farm_size := none
        location := none }
    some (u,
      { db with
          users := u :: db.users
          farmers := if u.role == "farmer" then f :: db.farmers else db.farmers })
  else none

inductive DestroyResult where
  | notFound
  | forbidden
  | serverError
  | noContent
deriving DecidableEq

/-- views.py `FarmerDetailView.destroy` (admin-only): `farmer.delete()`
removes the profile (the Crop foreign key cascades), then `user.delete()`
removes the backing user.  The view opens no transaction, so the first
delete is already committed when the second runs; `userDeleteFails` models
the second step raising (e.g. a database error), in which case the request
ends in a server error with the profile gone and the user still present. -/
def farmerDestroy (db : DB) (caller : User) (fid : Nat)
    (userDeleteFails : Bool) : DestroyResult × DB :=
  if !caller.is_admin then (DestroyResult.forbidden, db)
  else
    match getFarmerById db fid with
    | none => (DestroyResult.notFound, db)
    | some f =>
      let db1 : DB :=
        { db with
            farmers := db.farmers.filter (fun g => g.id != f.id)
            crops := db.crops.filter (fun c => c.farmerId != f.id) }
      if userDeleteFails then (DestroyResult.serverError, db1)
      else
        (DestroyResult.noContent,
         { db1 with users := db1.users.filter (fun u => u.id != f.userId) })

/-- views.py `FarmerProfileView.put` input: the user fields copied by the
loop over `['first_name', 'last_name', 'email', 'phone', 'address']` plus
the `FarmerSerializer` writable fields (partial update: `none` = absent
from `request.data`). -/
structure ProfilePutPayload where
  first_name : Option String
  last_name : Option String
  email : Option String
  phone : Option String
  address : Option String
  farm_name : Option String
  farm_size : Option Int
  location : Option String
deriving DecidableEq

/-- The `setattr` loop of `FarmerProfileView.put`: every present user field
is written onto the User, with no validation. -/
def applyUserFields (u : User) (p : ProfilePutPayload) : User :=
  { u with
    first_name := p.first_name.getD u.first_name
    last_name := p.last_name.getD u.last_name
    email := p.email.getD u.email
    phone := match p.phone with | some s => some s | none => u.phone
    address := match p.address with | some s => some s | none => u.address }

/-- serializers.py `FarmerSerializer.is_valid()` on a partial update: the
only constrained writable field is `farm_size`, whose model validator
`MinValueValidator(Decimal(0.01))` requires `1 ≤ v` in hundredths. -/
def profileFieldsValid (p : ProfilePutPayload) : Bool :=
  match p.farm_size with
  | some v => decide (1 ≤ v)
  | none => true

/-- Saving the farmer serializer: the present profile fields are written. -/
def applyFarmerFields (f : Farmer) (p : ProfilePutPayload) : Farmer :=
  { f with
    farm_name := match p.farm_name with | some s => some s | none => f.farm_name
    farm_size := match p.farm_size with | some v => some v | none => f.farm_size
    location := match p.location with | some s => some s | none => f.location }

inductive PutResult where
  | notFound
  | forbidden
  | badRequest
  | ok
deriving DecidableEq

/-- views.py `FarmerProfileView.put` (farmer-only): the caller's profile is
looked up (404 if absent), then `request.user.save()` commits the user
fields BEFORE the profile serializer is validated; a profile validation
failure answers 400 with the user-field writes already persisted. -/
def farmerProfilePut (db : DB) (caller : User) (p : ProfilePutPayload) :
    PutResult × DB :=
  if !caller.is_farmer then (PutResult.forbidden, db)
  else
    match getFarmerByUserId db caller.id with
    | none => (PutResult.notFound, db)
    | some f =>
      let db1 : DB :=
        { db with
            users := db.users.map (fun u =>
              if u.id == caller.id then applyUserFields u p else u) }
      if profileFieldsValid p then
        (PutResult.ok,
         { db1 with
             farmers := db1.farmers.map (fun g =>
               if g.id == f.id then applyFarmerFields g p else g) })
      else (PutResult.badRequest, db1)

/-- The distinct values of `f` over `l`, in first-occurrence order: the
group keys produced by a SQL `GROUP BY f`. -/
def keysOf {κ : Type} [DecidableEq κ] (f : Crop → κ) (l : List Crop) : List κ :=
  (l.map f).dedup

/-- `.values(f).annotate(count=Count(..))`: one `(key, count)` row per
distinct key, the count being the number of rows mapping to that key. -/
def countBy {κ : Type} [DecidableEq κ] (f : Crop → κ) (l : List Crop) :
    List (κ × Nat) :=
  (keysOf f l).map (fun k => (k, (l.filter (fun a => decide (f a = k))).length))

/-- views.py `AdminDashboardView.get` response. -/
structure DashboardData where
  total_farmers : Nat
  total_crops : Nat
  crops_by_type : List (String × Nat)
  recent_crops : List Crop
deriving DecidableEq

/-- views.py `AdminDashboardView.get` (admin-only): table counts, crop
counts grouped by `crop_type`, and the first 10 crops in `-created_at`
order. -/
def adminDashboard (db : DB) : DashboardData :=
  { total_farmers := db.farmers.length
    total_crops := db.crops.length
    crops_by_type := countBy (fun c => c.crop_type) db.crops
    recent_crops := (orderedCrops db.crops).take 10 }

/-- views.py `crop_statistics` grouping key
`('farmer__user__first_name', 'farmer__user__last_name')`: the owning
user's (first, last) name pair, reached through the crop's foreign keys
(an inner join, total on well-formed states). -/
def cropOwnerName (db : DB) (c : Crop) : String × String :=
  match getFarmerById db c.farmerId with
  | some f =>
    match getUserById db f.userId with
    | some u => (u.first_name, u.last_name)
    | none => ("", "")
  | none => ("", "")

/-- views.py `crop_statistics` first query:
`.values(first, last).annotate(count).order_by('-count')[:10]` — counts per
name pair, sorted by count descending, first 10 rows. -/
def cropsByFarmer (db : DB) : List ((String × String) × Nat) :=
  (((countBy (cropOwnerName db) db.crops).insertionSort
    (keyDesc (fun r => r.2))).take 10)

/-- The `date_format(created_at, %Y-%m)` bucket of a crop. -/
def cropMonth (c : Crop) : Nat × Nat := (c.created_at.year, c.created_at.month)

/-- Chronological order on year-month buckets; for calendar months
(1..12) this coincides with the lexicographic string order of the
zero-padded `%Y-%m` rendering that the SQL query sorts by. -/
def monthKey (ym : Nat × Nat) : Nat := ym.1 * 13 + ym.2

/-- views.py `crop_statistics` second query: counts per year-month bucket
of `created_at`, in ascending bucket order (`order_by('month')`). -/
def cropsByMonth (db : DB) : List ((Nat × Nat) × Nat) :=
  (countBy cropMonth db.crops).insertionSort (keyAsc (fun r => monthKey r.1))

/-! Concrete states used by witnesses, counterexamples and code-bug
evaluations. -/

def t1 : DateTime := ⟨2024, 2, 5⟩

def t2 : DateTime := ⟨2024, 3, 1⟩

def adminU : User := ⟨1, "root", "root@x.io", "Ada", "Admin", none, none, "admin"⟩

def aliceU : User := ⟨2, "alice", "alice@x.io", "Alice", "Arap", none, none, "farmer"⟩

def bobU : User := ⟨3, "bob", "bob@x.io", "Bob", "Bett", none, none, "farmer"⟩

def aliceF : Farmer := ⟨1, 2, some "Green Acres", some 250, some "Nakuru"⟩

def bobF : Farmer := ⟨2, 3, none, none, none⟩

def crop1 : Crop :=
  ⟨1, 1, "Maize", "cereals", 10000, "kg", none, none, "planted", none, t1⟩

def crop2 : Crop :=
  ⟨2, 2, "Wheat", "cereals", 5000, "kg", none, none, "growing", none, t2⟩

def dbMain : DB := ⟨[adminU, aliceU, bobU], [aliceF, bobF], [crop1, crop2]⟩

def payloadW : CropPayload :=
  ⟨"Maize", "cereals", 10000, "kg", none, none, "planted", none⟩

def payloadZeroQ : CropPayload :=
  ⟨"Beans", "legumes", 0, "kg", none, none, "planted", none⟩

def dbCex : DB := ⟨[adminU, aliceU], [aliceF], [crop1]⟩

def pReg : RegPayload :=
  ⟨"wanjiku", "w@x.io", "s3cretpw", "s3cretpw", "Wanjiku", "N", none, none⟩

def dbEmpty : DB := ⟨[], [], []⟩

def uReg : User := ⟨1, "wanjiku", "w@x.io", "Wanjiku", "N", none, none, "farmer"⟩

def fReg : Farmer := ⟨1, 1, none, none, none⟩

def dbReg : DB := ⟨[uReg], [fReg], []⟩

def pBad : ProfilePutPayload :=
  ⟨some "Changed", none, none, none, none, none, some 0, none⟩

def johnU1 : User := ⟨1, "jd1", "jd1@x.io", "John", "Doe", none, none, "farmer"⟩

def johnU2 : User := ⟨2, "jd2", "jd2@x.io", "John", "Doe", none, none, "farmer"⟩

def amaraU : User :=
  ⟨3, "amara", "am@x.io", "Amara", "Otieno", none, none, "farmer"⟩

def johnF1 : Farmer := ⟨1, 1, none, none, none⟩

def johnF2 : Farmer := ⟨2, 2, none, none, none⟩

def amaraF : Farmer := ⟨3, 3, none, none, none⟩

def statCrop (i fid m : Nat) : Crop :=
  ⟨i, fid, "c", "cereals", 100, "kg", none, none, "planted", none, ⟨2024, m, 1⟩⟩

/-- Two distinct farmers (ids 1 and 2) both named John Doe with two crops
each, and one farmer named Amara Otieno with three crops. -/
def dbStat : DB :=
  ⟨[johnU1, johnU2, amaraU], [johnF1, johnF2, amaraF],
   [statCrop 1 1 1, statCrop 2 1 1, statCrop 3 2 2, statCrop 4 2 2,
    statCrop 5 3 3, statCrop 6 3 3, statCrop 7 3 3]⟩

def bigU (i : Nat) : User :=
  ⟨i, "u" ++ toString i, "", "F" ++ toString i, "L", none, none, "farmer"⟩

def bigF (i : Nat) : Farmer := ⟨i, i, none, none, none⟩

def bigC (i : Nat) : Crop :=
  ⟨i, i, "c", "cereals", 100, "kg", none, none, "planted", none, ⟨2024, 1, 1⟩⟩

/-- Eleven distinctly-named farmers with one crop each: one name group
must be left out of the 10 statistics rows. -/
def dbBig : DB :=
  ⟨(List.range 11).map (fun i => bigU (i + 1)),
   (List.range 11).map (fun i => bigF (i + 1)),
   (List.range 11).map (fun i => bigC (i + 1))⟩

/-! Helper lemmas shared by the claim theorems. -/

theorem find?_key_eq_of_mem {α : Type} (key : α → Nat) {l : List α} {a : α}
    (hnd : (l.map key).Nodup) (ha : a ∈ l) :
    l.find? (fun x => key x == key a) = some a := by
  induction l with
  | nil => cases ha
  | cons x xs ih =>
    rw [List.map_cons, List.nodup_cons] at hnd
    rcases List.mem_cons.mp ha with h | h
    · subst h
      exact List.find?_cons_of_pos _ (by simp)
    · have hne : key x ≠ key a := by
        intro hk
        exact hnd.1 (by rw [hk]; exact List.mem_map_of_mem key h)
      rw [List.find?_cons_of_neg _ (by simp [hne])]
      exact ih hnd.2 h

theorem eq_of_mem_of_key_nodup {α : Type} (key : α → Nat) {l : List α}
    {a b : α} (hnd : (l.map key).Nodup) (ha : a ∈ l) (hb : b ∈ l)
    (hk : key a = key b) : a = b := by
  induction l with
  | nil => cases ha
  | cons x xs ih =>
    rw [List.map_cons, List.nodup_cons] at hnd
    rcases List.mem_cons.mp ha with h1 | h1 <;> rcases List.mem_cons.mp hb with h2 | h2
    · rw [h1, h2]
    · exact absurd (by rw [← h1, hk]; exact List.mem_map_of_mem key h2) hnd.1
    · exact absurd (by rw [← h2, ← hk]; exact List.mem_map_of_mem key h1) hnd.1
    · exact ih hnd.2 h1 h2

theorem le_foldr_max {l : List Nat} {a : Nat} (ha : a ∈ l) :
    a ≤ l.foldr max 0 := by
  induction l with
  | nil => cases ha
  | cons x xs ih =>
    rcases List.mem_cons.mp ha with rfl | h
    · exact le_max_left _ _
    · exact le_trans (ih h) (le_max_right _ _)

theorem mem_countBy {κ : Type} [DecidableEq κ] (f : Crop → κ) (l : List Crop)
    (k : κ) (n : Nat) :
    (k, n) ∈ countBy f l ↔
      (∃ a ∈ l, f a = k) ∧
      n = (l.filter (fun a => decide (f a = k))).length := by
  unfold countBy keysOf
  rw [List.mem_map]
  constructor
  · rintro ⟨k2, hk2, heq⟩
    rw [Prod.mk.injEq] at heq
    obtain ⟨rfl, rfl⟩ := heq
    rw [List.mem_dedup] at hk2
    obtain ⟨a, ha, rfl⟩ := List.mem_map.mp hk2
    exact ⟨⟨a, ha, rfl⟩, rfl⟩
  · rintro ⟨⟨a, ha, rfl⟩, rfl⟩
    exact ⟨f a, List.mem_dedup.mpr (List.mem_map_of_mem f ha), rfl⟩

/-- What the spec means by "the filter value, when supplied, must match":
holds vacuously for an absent filter and — because the code treats a falsy
(empty-string) parameter as absent — also for an empty one. -/
def filterMatches (q : Option String) (v : String) : Prop :=
  ∀ s, q = some s → s ≠ "" → v = s

theorem mem_applyQueryFilter (field : Crop → String) (q : Option String)
    (cs : List Crop) (c : Crop) :
    c ∈ applyQueryFilter field q cs ↔ c ∈ cs ∧ filterMatches q (field c) := by
  cases q with
  | none =>
    constructor
    · intro h
      exact ⟨h, fun s hs => by cases hs⟩
    · intro h
      exact h.1
  | some s =>
    by_cases hs : s = ""
    · subst hs
      constructor
      · intro h
        refine ⟨by simpa [applyQueryFilter] using h, ?_⟩
        intro s2 h1 h2
        injection h1 with h3
        exact absurd h3.symm h2
      · intro h
        simpa [applyQueryFilter] using h.1
    · have hbne : (s != "") = true := by simp [hs]
      constructor
      · intro h
        rw [applyQueryFilter, if_pos hbne] at h
        have hm := List.mem_filter.mp h
        refine ⟨hm.1, ?_⟩
        intro s2 h1 h2
        injection h1 with h3
        rw [← h3]
        exact eq_of_beq hm.2
      · intro h
        have hf : field c = s := h.2 s rfl hs
        rw [applyQueryFilter, if_pos hbne]
        exact List.mem_filter.mpr ⟨h.1, by simp [hf]⟩

theorem mem_orderedCrops (cs : List Crop) (c : Crop) :
    c ∈ orderedCrops cs ↔ c ∈ cs :=
  (List.perm_insertionSort _ cs).mem_iff

theorem orderedCrops_sorted (cs : List Crop) :
    (orderedCrops cs).Pairwise (keyDesc cropCreatedKey) :=
  List.sorted_insertionSort _ cs

theorem length_orderedCrops (cs : List Crop) :
    (orderedCrops cs).length = cs.length :=
  (List.perm_insertionSort _ cs).length_eq

/-- An admin caller is not a farmer caller: the two role strings differ. -/
theorem is_admin_not_is_farmer {u : User} (h : u.is_admin = true) :
    u.is_farmer = false := by
  have hr : u.role = "admin" := by simpa [User.is_admin] using h
  simp [User.is_farmer, hr]

/-- On a well-formed state a crop's foreign keys resolve, and the
permission check reduces to comparing the owning user with the caller. -/
theorem hasObjectPermissionCrop_resolved {db : DB} {c : Crop} {f : Farmer}
    {u : User} (caller : User) (hndF : (db.farmers.map (fun x => x.id)).Nodup)
    (hndU : (db.users.map (fun x => x.id)).Nodup) (hf : f ∈ db.farmers)
    (hfid : f.id = c.farmerId) (hu : u ∈ db.users) (huid : u.id = f.userId) :
    hasObjectPermissionCrop db caller c =
      if caller.is_admin then true else (u.id == caller.id) := by
  have hgf : getFarmerById db c.farmerId = some f := by
    unfold getFarmerById
    rw [← hfid]
    exact find?_key_eq_of_mem (fun x => x.id) hndF hf
  have hgu : getUserById db f.userId = some u := by
    unfold getUserById
    rw [← huid]
    exact find?_key_eq_of_mem (fun x => x.id) hndU hu
  unfold hasObjectPermissionCrop
  simp only [hgf, hgu]

/-- C1: for every crop `c` in a well-formed state and every authenticated
caller, the `IsCropOwnerOrAdmin` object-level check grants access iff the
caller is an admin or the crop's owning farmer's user is the caller; when
it does not grant, retrieve, update and delete all answer Forbidden, the
crop is not returned, and the state is unchanged. -/
theorem crop_detail_access_control (db : DB) (caller : User) (c : Crop)
    (p : CropPayload) (hwf : db.wf) (hc : c ∈ db.crops) :
    (hasObjectPermissionCrop db caller c = true ↔
      (caller.role = "admin" ∨ ownsCrop db caller.id c)) ∧
    (hasObjectPermissionCrop db caller c = false →
      retrieveCrop db caller c.id = CropGetResult.forbidden ∧
      updateCropView db caller c.id p = (CropWriteResult.forbidden, db) ∧
      deleteCropView db caller c.id = (CropDeleteResult.forbidden, db)) := by
  obtain ⟨hndU, hndF, hndFU, hndC, hFU, hCF⟩ := hwf
  obtain ⟨f, hf, hfid⟩ := hCF c hc
  obtain ⟨u, hu, huid⟩ := hFU f hf
  have hgc : getCrop db c.id = some c := by
    unfold getCrop
    exact find?_key_eq_of_mem (fun x => x.id) hndC hc
  have hperm := hasObjectPermissionCrop_resolved caller hndF hndU hf hfid hu huid
  constructor
  · by_cases hadm : caller.is_admin = true
    · have hrole : caller.role = "admin" := by simpa [User.is_admin] using hadm
      rw [hperm, if_pos hadm]
      simp [hrole]
    · have hrole : caller.role ≠ "admin" := by
        intro h
        exact hadm (by simp [User.is_admin, h])
      rw [hperm, if_neg hadm]
      constructor
      · intro h
        refine Or.inr ⟨f, hf, hfid, ?_⟩
        rw [← huid]
        exact eq_of_beq h
      · intro h
        rcases h with h | ⟨f2, hf2, hfid2, hfu2⟩
        · exact absurd h hrole
        · have hf2f : f2 = f :=
            eq_of_mem_of_key_nodup (fun x => x.id) hndF hf2 hf
              (by show f2.id = f.id; rw [hfid2, hfid])
          rw [hf2f] at hfu2
          exact beq_iff_eq.mpr (huid.trans hfu2)
  · intro hfalse
    refine ⟨?_, ?_, ?_⟩
    · simp [retrieveCrop, hgc, hfalse]
    · simp [updateCropView, hgc, hfalse]
    · simp [deleteCropView, hgc, hfalse]

/-- Witness for C1 at a concrete state: caller `bobU` is a farmer who does
not own `crop1`. -/
theorem crop_detail_access_control_w :
    (hasObjectPermissionCrop dbMain bobU crop1 = true ↔
      (bobU.role = "admin" ∨ ownsCrop dbMain bobU.id crop1)) ∧
    (hasObjectPermissionCrop dbMain bobU crop1 = false →
      retrieveCrop dbMain bobU crop1.id = CropGetResult.forbidden ∧
      updateCropView dbMain bobU crop1.id payloadW = (CropWriteResult.forbidden, dbMain) ∧
      deleteCropView dbMain bobU crop1.id = (CropDeleteResult.forbidden, dbMain)) :=
  crop_detail_access_control dbMain bobU crop1 payloadW (by decide) (by decide)

theorem map_owner_of_update (l : List Crop) (cid : Nat) (p : CropPayload) :
    (l.map (fun x => if x.id == cid then applyCropUpdate x p else x)).map
        (fun c => (c.id, c.farmerId)) =
      l.map (fun c => (c.id, c.farmerId)) := by
  induction l with
  | nil => rfl
  | cons x xs ih =>
    simp only [List.map_cons, ih]
    by_cases hid : (x.id == cid) = true
    · simp [hid, applyCropUpdate]
    · simp [hid]

/-- C10: the single-crop update endpoint can never reassign a crop to a
different FarmerProfile — the payload carries no farmer field, so for every
request the `(id, farmer)` pairs of the crop table are unchanged. -/
theorem crop_update_preserves_owner (db : DB) (caller : User) (cid : Nat)
    (p : CropPayload) :
    (updateCropView db caller cid p).2.crops.map (fun c => (c.id, c.farmerId)) =
      db.crops.map (fun c => (c.id, c.farmerId)) := by
  unfold updateCropView
  cases hgc : getCrop db cid with
  | none => rfl
  | some c =>
    by_cases hperm : hasObjectPermissionCrop db caller c = true
    · by_cases hval : cropPayloadValid p = true
      · simp only [hperm, hval, if_true]
        exact map_owner_of_update db.crops c.id p
      · simp [hperm, hval]
    · simp [hperm]

/-- C7: a crop creation request with quantity ≤ 0 is never accepted: no
crop is created and the state is unchanged. -/
theorem crop_create_rejects_nonpositive_quantity (db : DB) (caller : User)
    (fid : Option Nat) (p : CropPayload) (newId : Nat) (now : DateTime)
    (hq : p.quantity ≤ 0) :
    (∀ c, (cropPost db caller fid p newId now).1 ≠ CropCreateResult.created c) ∧
    (cropPost db caller fid p newId now).2 = db := by
  have hval : cropPayloadValid p = false := by
    unfold cropPayloadValid
    have h0 : ¬ (0 < p.quantity) := not_lt.mpr hq
    simp [h0]
  have hsave : ∀ f, cropPostSave db f p newId now =
      (CropCreateResult.badRequest, db) := by
    intro f
    unfold cropPostSave
    simp [hval]
  unfold cropPost
  by_cases hfarm : caller.is_farmer = true
  · simp only [hfarm, if_true]
    cases hg : getFarmerByUserId db caller.id with
    | none => simp [hg]
    | some f => simp [hg, hsave f]
  · simp only [hfarm, if_false, Bool.false_eq_true]
    cases fid with
    | none => simp
    | some i =>
      cases hg : getFarmerById db i with
      | none => simp [hg]
      | some f => simp [hg, hsave f]

/-- Witness for C7: an admin request with quantity 0 is rejected on the
concrete state. -/
theorem crop_create_rejects_nonpositive_quantity_w :
    (∀ c, (cropPost dbMain adminU none payloadZeroQ 99 t2).1 ≠
      CropCreateResult.created c) ∧
    (cropPost dbMain adminU none payloadZeroQ 99 t2).2 = dbMain :=
  crop_create_rejects_nonpositive_quantity dbMain adminU none payloadZeroQ 99 t2
    (by decide)

/-- C6: crop creation resolves the owner from the caller's role.  A farmer
caller's valid request creates a crop attached to the caller's own profile,
whatever `farmer_id` the body carries; an admin caller without `farmer_id`
gets a validation failure and the state is unchanged. -/
theorem crop_create_owner_resolution (db : DB) (caller : User)
    (fid : Option Nat) (p : CropPayload) (newId : Nat) (now : DateTime) :
    (∀ f, caller.is_farmer = true → getFarmerByUserId db caller.id = some f →
      cropPayloadValid p = true →
      cropPost db caller fid p newId now =
        (CropCreateResult.created (mkCrop f p newId now),
         { db with crops := mkCrop f p newId now :: db.crops }) ∧
      (mkCrop f p newId now).farmerId = f.id) ∧
    (caller.is_admin = true → fid = none →
      cropPost db caller fid p newId now = (CropCreateResult.badRequest, db)) := by
  constructor
  · intro f hfarm hget hval
    refine ⟨?_, rfl⟩
    unfold cropPost cropPostSave
    simp [hfarm, hget, hval]
  · intro hadm hnone
    subst hnone
    have hfarm := is_admin_not_is_farmer hadm
    unfold cropPost
    simp [hfarm]

/-- Witness for C6: farmer `aliceU` creating a valid crop (with a stray
`farmer_id` pointing at bob's profile, which is ignored), and admin
`adminU` creating without `farmer_id`. -/
theorem crop_create_owner_resolution_w :
    (cropPost dbMain aliceU (some 2) payloadW 99 t2 =
      (CropCreateResult.created (mkCrop aliceF payloadW 99 t2),
       { dbMain with crops := mkCrop aliceF payloadW 99 t2 :: dbMain.crops }) ∧
     (mkCrop aliceF payloadW 99 t2).farmerId = aliceF.id) ∧
    cropPost dbMain adminU none payloadW 99 t2 =
      (CropCreateResult.badRequest, dbMain) :=
  ⟨(crop_create_owner_resolution dbMain aliceU (some 2) payloadW 99 t2).1
      aliceF (by decide) (by decide) (by decide),
   (crop_create_owner_resolution dbMain adminU none payloadW 99 t2).2
      (by decide) rfl⟩

/-- C4: every successful registration creates a user whose role is farmer
and a FarmerProfile owned by exactly that new user. -/
theorem register_creates_profile (db : DB) (p : RegPayload)
    (pwOk : String → Bool) (u : User) (db2 : DB) (hwf : db.wf)
    (h : registerView db p pwOk = some (u, db2)) :
    u.role = "farmer" ∧
    ∃ f ∈ db2.farmers, f.userId = u.id ∧
      f.farm_name = none ∧ f.farm_size = none ∧ f.location = none ∧
      ∀ g ∈ db2.farmers, g.userId = u.id → g = f := by
  unfold registerView at h
  by_cases hc : (p.password == p.confirm_password && pwOk p.password &&
      db.users.all (fun x => x.username != p.username)) = true
  · rw [if_pos hc] at h
    injection h with h2
    obtain ⟨hu, hdb⟩ := Prod.mk.injEq .. |>.mp h2
    subst hu
    subst hdb
    refine ⟨rfl, ?_⟩
    refine ⟨⟨freshFarmerId db, freshUserId db, none, none, none⟩, ?_, rfl,
      rfl, rfl, rfl, ?_⟩
    · simp
    · intro g hg hgid
      simp only [show (("farmer" : String) == "farmer") = true from rfl,
        if_true] at hg
      rcases List.mem_cons.mp hg with h1 | h1
      · exact h1
      · obtain ⟨u2, hu2, hu2id⟩ := hwf.2.2.2.2.1 g h1
        have hlt : u2.id < freshUserId db :=
          Nat.lt_succ_of_le (le_foldr_max (List.mem_map_of_mem (fun x => x.id) hu2))
        rw [hu2id, hgid] at hlt
        exact absurd hlt (Nat.lt_irrefl _)
  · rw [if_neg hc] at h
    cases h

/-- Witness for C4: registering on the empty state yields user `uReg` and
state `dbReg`, whose only profile is owned by `uReg`. -/
theorem register_creates_profile_w :
    uReg.role = "farmer" ∧
    ∃ f ∈ dbReg.farmers, f.userId = uReg.id ∧
      f.farm_name = none ∧ f.farm_size = none ∧ f.location = none ∧
      ∀ g ∈ dbReg.farmers, g.userId = uReg.id → g = f :=
  register_creates_profile dbEmpty pReg (fun _ => true) uReg dbReg
    (by decide) (by decide)

/-- C2 (code bug): on the concrete state, deleting alice's profile (farmer
id 1) while the subsequent `user.delete()` step fails leaves the profile
(and its crops) deleted but the backing user still present — the orphaned
half-state the claim's atomicity requirement forbids.  The source wraps the
two deletes in no transaction. -/
theorem farmer_destroy_not_atomic :
    (∃ f ∈ dbMain.farmers, f.id = 1) ∧
    (farmerDestroy dbMain adminU 1 true).1 = DestroyResult.serverError ∧
    (∀ f ∈ (farmerDestroy dbMain adminU 1 true).2.farmers, f.id ≠ 1) ∧
    (∃ u ∈ (farmerDestroy dbMain adminU 1 true).2.users, u.id = aliceF.userId) := by
  decide

/-- C3 (code bug): on the concrete state, alice's profile update carrying a
new first name together with an invalid farm_size is rejected (400), yet
the user-field write is already persisted — the partial commit the claim
rules out.  The source saves `request.user` before validating the profile
serializer. -/
theorem profile_put_commits_user_fields_on_profile_error :
    (farmerProfilePut dbMain aliceU pBad).1 = PutResult.badRequest ∧
    (∃ u ∈ (farmerProfilePut dbMain aliceU pBad).2.users,
      u.id = aliceU.id ∧ u.first_name = "Changed") ∧
    aliceU.first_name ≠ "Changed" := by
  decide

/-- C5 (amended): the crop list is role-scoped — an admin receives every
persisted crop, a farmer exactly the crops of their own profile — and a
supplied non-empty crop_type / status filter restricts the result to exact
matches, AND-combined, each independently optional; a supplied
empty-string filter value is treated as absent (Python truthiness), the
one departure from the claim as stated. -/
theorem crop_list_scope_and_filters (db : DB) (caller : User)
    (qt qs : Option String) :
    (caller.is_admin = true →
      ∃ l, cropListGet db caller qt qs = some l ∧
        ∀ c, c ∈ l ↔ c ∈ db.crops ∧
          filterMatches qt c.crop_type ∧ filterMatches qs c.status) ∧
    (∀ f, caller.is_admin = false → getFarmerByUserId db caller.id = some f →
      ∃ l, cropListGet db caller qt qs = some l ∧
        ∀ c, c ∈ l ↔ c ∈ db.crops ∧ c.farmerId = f.id ∧
          filterMatches qt c.crop_type ∧ filterMatches qs c.status) := by
  constructor
  · intro hadm
    refine ⟨applyQueryFilter (fun c => c.status) qs
      (applyQueryFilter (fun c => c.crop_type) qt (orderedCrops db.crops)),
      ?_, ?_⟩
    · unfold cropListGet
      simp [hadm]
    · intro c
      rw [mem_applyQueryFilter, mem_applyQueryFilter, mem_orderedCrops]
      tauto
  · intro f hadm hget
    refine ⟨applyQueryFilter (fun c => c.status) qs
      (applyQueryFilter (fun c => c.crop_type) qt
        ((orderedCrops db.crops).filter (fun c => c.farmerId == f.id))),
      ?_, ?_⟩
    · unfold cropListGet
      simp [hadm, hget]
    · intro c
      rw [mem_applyQueryFilter, mem_applyQueryFilter, List.mem_filter,
        mem_orderedCrops]
      constructor
      · rintro ⟨⟨⟨hin, hfid⟩, hqt⟩, hqs⟩
        exact ⟨hin, eq_of_beq hfid, hqt, hqs⟩
      · rintro ⟨hin, hfid, hqt, hqs⟩
        exact ⟨⟨⟨hin, beq_iff_eq.mpr hfid⟩, hqt⟩, hqs⟩

/-- C5 counterexample: with the crop_type filter supplied as the empty
string, the code ignores it and returns the cereals crop, instead of the
exact-match result (no crop of crop_type "") the claim as stated
demands. -/
theorem crop_list_empty_filter_cex :
    cropListGet dbCex adminU (some "") none = some [crop1] ∧
    crop1.crop_type ≠ "" := by
  decide

/-- Witness for C5 at a concrete state: admin scope with a non-empty
crop_type filter. -/
theorem crop_list_scope_and_filters_w :
    ∃ l, cropListGet dbCex adminU (some "cereals") none = some l ∧
      ∀ c, c ∈ l ↔ c ∈ dbCex.crops ∧
        filterMatches (some "cereals") c.crop_type ∧
        filterMatches none c.status :=
  (crop_list_scope_and_filters dbCex adminU (some "cereals") none).1 (by decide)

/-- C8: the admin dashboard reports the farmer and crop table sizes, a
by-type map whose keys are exactly the crop types with at least one crop
(each with its positive count, zero-count types omitted), and the 10
most-recently-created crops newest first; on the empty state it returns
zero totals, an empty map and an empty list. -/
theorem admin_dashboard_correct (db : DB) :
    (adminDashboard db).total_farmers = db.farmers.length ∧
    (adminDashboard db).total_crops = db.crops.length ∧
    (∀ t n, (t, n) ∈ (adminDashboard db).crops_by_type ↔
      (∃ c ∈ db.crops, c.crop_type = t) ∧
      n = (db.crops.filter (fun c => decide (c.crop_type = t))).length) ∧
    (∀ t n, (t, n) ∈ (adminDashboard db).crops_by_type → 0 < n) ∧
    (adminDashboard db).recent_crops.length = min 10 db.crops.length ∧
    (adminDashboard db).recent_crops.Pairwise
      (fun a b => b.created_at.key ≤ a.created_at.key) ∧
    (∀ c ∈ (adminDashboard db).recent_crops, c ∈ db.crops) ∧
    (∀ c ∈ db.crops, c ∉ (adminDashboard db).recent_crops →
      ∀ r ∈ (adminDashboard db).recent_crops,
        c.created_at.key ≤ r.created_at.key) ∧
    adminDashboard ⟨[], [], []⟩ = ⟨0, 0, [], []⟩ := by
  refine ⟨rfl, rfl, ?_, ?_, ?_, ?_, ?_, ?_, rfl⟩
  · intro t n
    exact mem_countBy (fun c => c.crop_type) db.crops t n
  · intro t n hmem
    obtain ⟨⟨a, ha, hfa⟩, rfl⟩ :=
      (mem_countBy (fun c => c.crop_type) db.crops t n).mp hmem
    exact List.length_pos_of_mem (List.mem_filter.mpr ⟨ha, by simp [hfa]⟩)
  · show ((orderedCrops db.crops).take 10).length = min 10 db.crops.length
    rw [List.length_take, length_orderedCrops]
  · exact List.Pairwise.sublist (List.take_sublist _ _)
      (orderedCrops_sorted db.crops)
  · intro c hc
    exact (mem_orderedCrops _ _).mp ((List.take_sublist _ _).subset hc)
  · intro c hc hnot r hr
    have hsorted := orderedCrops_sorted db.crops
    have hsplit := List.take_append_drop 10 (orderedCrops db.crops)
    rw [← hsplit] at hsorted
    have h3 := (List.pairwise_append.mp hsorted).2.2
    have hcod : c ∈ List.take 10 (orderedCrops db.crops) ++
        List.drop 10 (orderedCrops db.crops) := by
      rw [hsplit]
      exact (mem_orderedCrops _ _).mpr hc
    rcases List.mem_append.mp hcod with h | h
    · exact absurd h hnot
    · exact h3 r hr c h

/-- Witness for C8: the type "cereals" appears in the by-type map of the
concrete state with its positive count 2. -/
theorem admin_dashboard_correct_w :
    ("cereals", 2) ∈ (adminDashboard dbMain).crops_by_type ∧ 0 < 2 :=
  ⟨by decide, (admin_dashboard_correct dbMain).2.2.2.1 "cereals" 2 (by decide)⟩

/-- C9 (amended): crop_statistics returns at most 10 name-group rows
sorted by crop count descending, where each row's count is the number of
crops whose owning user bears that (first, last) name — distinct farmers
sharing a full name are merged into one row — and the listed rows are the
TOP rows: every name group left out has a count no larger than any listed
row's; the by-month rows are exactly the year-month creation buckets of
the existing crops with their counts, in ascending chronological order. -/
theorem crop_statistics_correct (db : DB) :
    (cropsByFarmer db).Pairwise (fun a b => b.2 ≤ a.2) ∧
    (cropsByFarmer db).length =
      min 10 (countBy (cropOwnerName db) db.crops).length ∧
    (∀ k n, (k, n) ∈ cropsByFarmer db →
      (∃ c ∈ db.crops, cropOwnerName db c = k) ∧
      n = (db.crops.filter (fun c => decide (cropOwnerName db c = k))).length) ∧
    (∀ row ∈ countBy (cropOwnerName db) db.crops, row ∉ cropsByFarmer db →
      ∀ r ∈ cropsByFarmer db, row.2 ≤ r.2) ∧
    (cropsByMonth db).Pairwise (fun a b => monthKey a.1 ≤ monthKey b.1) ∧
    (∀ k n, (k, n) ∈ cropsByMonth db ↔
      (∃ c ∈ db.crops, cropMonth c = k) ∧
      n = (db.crops.filter (fun c => decide (cropMonth c = k))).length) := by
  refine ⟨?_, ?_, ?_, ?_, ?_, ?_⟩
  · exact List.Pairwise.sublist (List.take_sublist _ _)
      (List.sorted_insertionSort
        (keyDesc (fun r : (String × String) × Nat => r.2))
        (countBy (cropOwnerName db) db.crops))
  · unfold cropsByFarmer
    rw [List.length_take, (List.perm_insertionSort _ _).length_eq]
  · intro k n hmem
    have h1 : (k, n) ∈ countBy (cropOwnerName db) db.crops :=
      (List.perm_insertionSort _ _).mem_iff.mp
        ((List.take_sublist _ _).subset hmem)
    exact (mem_countBy _ _ _ _).mp h1
  · intro row hrow hnot r hr
    have hsorted : (List.insertionSort
        (keyDesc (fun x : (String × String) × Nat => x.2))
        (countBy (cropOwnerName db) db.crops)).Pairwise
          (keyDesc (fun x : (String × String) × Nat => x.2)) :=
      List.sorted_insertionSort _ _
    have hsplit := List.take_append_drop 10
      (List.insertionSort (keyDesc (fun x : (String × String) × Nat => x.2))
        (countBy (cropOwnerName db) db.crops))
    rw [← hsplit] at hsorted
    have h3 := (List.pairwise_append.mp hsorted).2.2
    have hmem2 : row ∈ List.take 10 (List.insertionSort
        (keyDesc (fun x : (String × String) × Nat => x.2))
        (countBy (cropOwnerName db) db.crops)) ++
      List.drop 10 (List.insertionSort
        (keyDesc (fun x : (String × String) × Nat => x.2))
        (countBy (cropOwnerName db) db.crops)) := by
      rw [hsplit]
      exact (List.perm_insertionSort _ _).mem_iff.mpr hrow
    rcases List.mem_append.mp hmem2 with h | h
    · exact absurd h hnot
    · exact h3 r hr row h
  · exact List.sorted_insertionSort
      (keyAsc (fun r : (Nat × Nat) × Nat => monthKey r.1))
      (countBy cropMonth db.crops)
  · intro k n
    have hp : ((k, n) ∈ cropsByMonth db) ↔
        ((k, n) ∈ countBy cropMonth db.crops) := by
      unfold cropsByMonth
      exact (List.perm_insertionSort _ _).mem_iff
    rw [hp]
    exact mem_countBy _ _ _ _

/-- C9 counterexample: in `dbStat` two distinct farmers are both named
John Doe; the top statistics row carries the merged count 4, which is no
single farmer's crop count, so the rows are not farmers ranked by their
own crop count. -/
theorem crop_statistics_name_collision_cex :
    (("John", "Doe"), 4) ∈ cropsByFarmer dbStat ∧
    (∀ f ∈ dbStat.farmers,
      (dbStat.crops.filter (fun c => c.farmerId == f.id)).length ≠ 4) := by
  decide

/-- Witness for C9: the merged John Doe row of `dbStat`, and on `dbBig`
the left-out eleventh name group is dominated by a listed row. -/
theorem crop_statistics_correct_w :
    ((∃ c ∈ dbStat.crops, cropOwnerName dbStat c = ("John", "Doe")) ∧
     4 = (dbStat.crops.filter
       (fun c => decide (cropOwnerName dbStat c = ("John", "Doe")))).length) ∧
    ((("F11", "L"), 1) : (String × String) × Nat).2 ≤
      ((("F1", "L"), 1) : (String × String) × Nat).2 :=
  ⟨(crop_statistics_correct dbStat).2.2.1 ("John", "Doe") 4 (by decide),
   (crop_statistics_correct dbBig).2.2.2.1 (("F11", "L"), 1) (by decide)
     (by decide) (("F1", "L"), 1) (by decide)⟩

end Shamba
